import Mathlib

/-!
Shallow embedding of the asynchronous vote-update pipeline of the
Chargedb-Award server (`server/index.js`), together with theorems that
settle the specification's claims against it.

JavaScript strings are modelled as lists of characters (`Str`); JS `Map`
and plain objects used as string-keyed dictionaries are modelled as
insertion-ordered association lists; the Notion client is modelled as an
environment of oracles giving, for each external call, the outcome the
call settles with (after the retry wrapper), plus an explicit trace of
the external operations issued.
-/

namespace ChargedbAward

/-- JS strings, modelled as lists of characters. -/
abbrev Str := List Char

/-- Embed a Lean string literal as a `Str`. -/
def str (s : String) : Str := s.toList

/-- Dictionary lookup on an insertion-ordered association list; models
JS `obj[name]` / `Map.get` (returns the value of the first — and in a
well-formed object only — binding of the key). -/
def lookupEntry {α : Type} : List (Str × α) → Str → Option α
  | [], _ => none
  | (k, v) :: rest, key => if k = key then some v else lookupEntry rest key

/-- Models JS `String.prototype.toLowerCase` (ASCII-accurate; the
non-ASCII characters appearing in this code base are case-less). -/
def toLowerStr (s : Str) : Str := s.map Char.toLower

/-- Whitespace recognised by the model of `String.prototype.trim`. -/
def isWsChar (c : Char) : Bool :=
  c == ' ' || c == '\t' || c == '\n' || c == '\r'

/-- Drop leading whitespace. -/
def trimLeft (s : Str) : Str := s.dropWhile isWsChar

/-- Drop trailing whitespace. -/
def trimRight (s : Str) : Str := (s.reverse.dropWhile isWsChar).reverse

/-- Models JS `String.prototype.trim`. -/
def trim (s : Str) : Str := trimRight (trimLeft s)

/-- Boolean substring test; models JS `String.prototype.includes`. -/
def containsSub (haystack needle : Str) : Bool :=
  (List.range (haystack.length + 1)).any fun i =>
    needle.isPrefixOf (haystack.drop i)

/-! ## Retry Controller (`isNotionRetryable`, `withNotionRetry`) -/

/-- A JS error value as observed by the server code: an optional
HTTP-like `status` and a `message`. -/
structure JsError where
  status : Option Nat
  message : Str
deriving DecidableEq, Repr

/-- An `Error` thrown with just a message (no status). -/
def jsErr (m : String) : JsError := ⟨none, str m⟩

/-- `MAX_NOTION_RETRIES` from the source. -/
def MAX_NOTION_RETRIES : Nat := 3

/-- `isNotionRetryable(error)`: retry only on HTTP 429/500/502/503. -/
def isNotionRetryable (e : JsError) : Bool :=
  e.status == some 429 || e.status == some 500 ||
    e.status == some 502 || e.status == some 503

/-- The failure channel of the retry wrapper.  The source's
`withNotionRetry` re-throws the caught error object itself; a
hypothetical "tagged as exhausted" re-raise (as the specification
describes) would be a distinguishable error, modelled here by the
second constructor so that the distinction is expressible. -/
inductive RetryError where
  | bare (e : JsError)
  | exhausted (e : JsError)
deriving DecidableEq, Repr

/-- Whether a retry-wrapper failure carries an exhaustion tag. -/
def RetryError.isExhaustedTag : RetryError → Bool
  | .bare _ => false
  | .exhausted _ => true

/-- Whether a retry-wrapper outcome is an exhaustion-tagged failure. -/
def exhaustedOutcome {α : Type} : Except RetryError α → Bool
  | .error e => e.isExhaustedTag
  | .ok _ => false

instance {ε α : Type} [DecidableEq ε] [DecidableEq α] : DecidableEq (Except ε α) := fun a b =>
  match a, b with
  | .ok x, .ok y =>
    if h : x = y then .isTrue (congrArg Except.ok h)
    else .isFalse fun hh => h (Except.ok.inj hh)
  | .error x, .error y =>
    if h : x = y then .isTrue (congrArg Except.error h)
    else .isFalse fun hh => h (Except.error.inj hh)
  | .ok _, .error _ => .isFalse fun hh => Except.noConfusion hh
  | .error _, .ok _ => .isFalse fun hh => Except.noConfusion hh

/-- Observable run of the retry wrapper: its result, how many backoff
delays (`sleep` calls) it performed, and how many times it invoked the
wrapped task. -/
structure RetryRun (α : Type) where
  result : Except RetryError α
  delays : Nat
  attempts : Nat
deriving DecidableEq, Repr

/-- The `for (attempt = 0; attempt <= MAX_NOTION_RETRIES; ...)` loop of
`withNotionRetry`.  `task n` is the outcome of the `n`-th invocation of
the wrapped operation; `fuel` counts the loop iterations left
(`MAX_NOTION_RETRIES + 1 - attempt`); `lastError` models the
`lastError` variable (the `fuel = 0` case is the dead `throw lastError`
after the loop). -/
def retryGo {α : Type} (task : Nat → Except JsError α) (lastError : Option JsError) :
    Nat → Nat → RetryRun α
  | _, 0 =>
    { result := .error (.bare (lastError.getD (jsErr "undefined"))),
      delays := 0, attempts := 0 }
  | attempt, fuel + 1 =>
    match task attempt with
    | .ok v => { result := .ok v, delays := 0, attempts := 1 }
    | .error e =>
      if !isNotionRetryable e || attempt == MAX_NOTION_RETRIES then
        { result := .error (.bare e), delays := 0, attempts := 1 }
      else
        let rest := retryGo task (some e) (attempt + 1) fuel
        { result := rest.result, delays := rest.delays + 1,
          attempts := rest.attempts + 1 }

/-- `withNotionRetry(task)`: run the task, retrying retryable failures
up to `MAX_NOTION_RETRIES` times with a delay before each retry. -/
def withNotionRetry {α : Type} (task : Nat → Except JsError α) : RetryRun α :=
  retryGo task none 0 (MAX_NOTION_RETRIES + 1)

/-! ## Vote Aggregator (`aggregateVotes`) -/

/-- A vote entry `{id, count}` as sanitized by the ingress route. -/
structure VoteEntry where
  id : Str
  count : Int
deriving DecidableEq, Repr

/-- `Map.prototype.set`: update the first binding of the key in place,
otherwise append a fresh binding (JS `Map` preserves insertion order). -/
def mapSet : List (Str × Int) → Str → Int → List (Str × Int)
  | [], key, value => [(key, value)]
  | (k, v) :: rest, key, value =>
    if k = key then (key, value) :: rest else (k, v) :: mapSet rest key value

/-- One step of the `for (const vote of votes)` loop body of
`aggregateVotes`. -/
def aggregateStep (totals : List (Str × Int)) (vote : VoteEntry) : List (Str × Int) :=
  mapSet totals vote.id ((lookupEntry totals vote.id).getD 0 + vote.count)

/-- `aggregateVotes(votes)`: collapse vote entries into per-id totals,
in first-seen id order. -/
def aggregateVotes (votes : List VoteEntry) : List VoteEntry :=
  (votes.foldl aggregateStep []).map fun p => ⟨p.1, p.2⟩

/-! ## Property values, rich text and the used-flag predicate -/

/-- The value of a page property as read from the record service.  A
rich-text valued property is kept as the list of its items'
`plain_text` fields; `select`/`status` carry an optional option name;
`number` an optional numeric value. `other` stands for every property
type the server code does not inspect. -/
inductive PropertyValue where
  | checkbox (b : Bool)
  | select (name : Option Str)
  | status (name : Option Str)
  | richText (parts : List Str)
  | titleV (parts : List Str)
  | number (n : Option Int)
  | other
deriving DecidableEq, Repr

/-- `joinRichText(richTextArray)`: concatenate the `plain_text` parts
and trim the result. -/
def joinRichText (parts : List Str) : Str := trim parts.flatten

/-- The affirmative words of the regex
`^(是|yes|true|已用|已使用|used)$` (lower-cased alternatives). -/
def AFFIRMATIVE_WORDS : List Str :=
  [str "是", str "yes", str "true", str "已用", str "已使用", str "used"]

/-- `isTruthyValue(value)`: a non-empty string whose trimmed text
matches the affirmative-word regex case-insensitively. -/
def isTruthyValue (value : Str) : Bool :=
  if value = [] then false
  else AFFIRMATIVE_WORDS.contains (toLowerStr (trim value))

/-- `isUsedPropertyValue(property)`: role-specific truthiness of the
used-flag column (the argument is `none` when the page lacks the
property). -/
def isUsedPropertyValue : Option PropertyValue → Bool
  | none => false
  | some p =>
    match p with
    | .checkbox b => b
    | .select name => isTruthyValue (name.getD [])
    | .status name => isTruthyValue (name.getD [])
    | .richText parts => isTruthyValue (joinRichText parts)
    | .titleV parts => isTruthyValue (joinRichText parts)
    | .number n => decide (0 < n.getD 0)
    | .other => false

/-! ## Schema Resolver -/

/-- A database column descriptor: its `type` string and, for
`select`/`status` columns, the names of the declared options. -/
structure PropSchema where
  type : Str
  options : List Str
deriving DecidableEq, Repr

/-- `KEY_VALUE_EXACT_NAMES` from the source. -/
def KEY_VALUE_EXACT_NAMES : List Str := [str "投票密码"]

/-- `KEY_USED_EXACT_NAMES` from the source. -/
def KEY_USED_EXACT_NAMES : List Str :=
  [str "是否已经使用？", str "是否已经使用", str "是否已使用", str "是否使用"]

/-- `KEY_RESULT_EXACT_NAMES` from the source. -/
def KEY_RESULT_EXACT_NAMES : List Str := [str "投票结果"]

/-- `KEY_VALUE_MATCHERS` from the source. -/
def KEY_VALUE_MATCHERS : List Str :=
  [str "密码", str "密钥", str "口令", str "key", str "pass", str "code", str "token"]

/-- `KEY_USED_MATCHERS` from the source. -/
def KEY_USED_MATCHERS : List Str :=
  [str "使用", str "已用", str "已使用", str "状态", str "used", str "status"]

/-- `KEY_RESULT_MATCHERS` from the source. -/
def KEY_RESULT_MATCHERS : List Str :=
  [str "投票结果", str "结果", str "json", str "vote", str "result"]

/-- `matchesPropertyName(name, matcher)` for string matchers:
case-insensitive substring containment (no regex matcher occurs in the
matcher lists above). -/
def matchesPropertyName (name matcher : Str) : Bool :=
  containsSub (toLowerStr name) (toLowerStr matcher)

/-- `findPropertyEntry(properties, matchers, allowedTypes)`: the first
column (in schema enumeration order) of an allowed type whose name
matches some matcher. -/
def findPropertyEntry (properties : List (Str × PropSchema))
    (matchers : List Str) (allowedTypes : List Str) : Option (Str × PropSchema) :=
  properties.find? fun p =>
    allowedTypes.contains p.2.type && matchers.any fun m => matchesPropertyName p.1 m

/-- First exact-name hit: the first name of `names` bound in
`properties`, paired with its column schema (models
`NAMES.find((name) => properties[name])`). -/
def findExactName (properties : List (Str × PropSchema)) (names : List Str) :
    Option (Str × PropSchema) :=
  names.findSome? fun name => (lookupEntry properties name).map fun s => (name, s)

/-- `resolveUsedProperty(properties)` given the operator override
(`KEY_DB_USED_PROPERTY`): override, then exact names, then fuzzy
matchers over the allowed types. -/
def resolveUsedProperty (override : Option Str)
    (properties : List (Str × PropSchema)) : Except JsError (Str × PropSchema) :=
  match override.bind fun o => (lookupEntry properties o).map fun s => (o, s) with
  | some r => .ok r
  | none =>
    match findExactName properties KEY_USED_EXACT_NAMES with
    | some r => .ok r
    | none =>
      match findPropertyEntry properties KEY_USED_MATCHERS
          [str "checkbox", str "select", str "status", str "rich_text",
            str "title", str "number"] with
      | some r => .ok r
      | none => .error (jsErr "Unable to locate used flag property in key_db.")

/-- `resolveKeyProperty(properties)` given the operator override
(`KEY_DB_KEY_PROPERTY`/`KEY_DB_PASSWORD_PROPERTY`). -/
def resolveKeyProperty (override : Option Str)
    (properties : List (Str × PropSchema)) : Except JsError (Str × PropSchema) :=
  match override.bind fun o => (lookupEntry properties o).map fun s => (o, s) with
  | some r => .ok r
  | none =>
    match findExactName properties KEY_VALUE_EXACT_NAMES with
    | some r => .ok r
    | none =>
      match findPropertyEntry properties KEY_VALUE_MATCHERS
          [str "title", str "rich_text", str "select", str "number"] with
      | some r => .ok r
      | none =>
        match properties.find? fun p => p.2.type == str "title" with
        | some r => .ok r
        | none =>
          match properties.find? fun p => p.2.type == str "rich_text" with
          | some r => .ok r
          | none => .error (jsErr "Unable to locate key property in key_db.")

/-- `resolveResultProperty(properties, keyPropertyName, usedPropertyName)`
given the operator override (`KEY_DB_RESULT_PROPERTY`). -/
def resolveResultProperty (override : Option Str)
    (properties : List (Str × PropSchema)) (keyPropertyName usedPropertyName : Str) :
    Except JsError (Str × PropSchema) :=
  match override.bind fun o => (lookupEntry properties o).map fun s => (o, s) with
  | some r => .ok r
  | none =>
    match findExactName properties KEY_RESULT_EXACT_NAMES with
    | some r => .ok r
    | none =>
      match findPropertyEntry properties KEY_RESULT_MATCHERS
          [str "rich_text", str "title"] with
      | some r => .ok r
      | none =>
        match properties.find? fun p =>
            p.2.type == str "rich_text" && p.1 != keyPropertyName &&
              p.1 != usedPropertyName with
        | some r => .ok r
        | none => .error (jsErr "Unable to locate vote result property in key_db.")

/-! ## Per-type serialization (`buildUsedUpdate`, `buildResultUpdate`) -/

/-- A property write issued to the record service. -/
inductive PropWrite where
  | checkbox (b : Bool)
  | select (name : Str)
  | status (name : Str)
  | richText (chunks : List Str)
  | titleV (chunks : List Str)
  | number (n : Int)
deriving DecidableEq, Repr

/-- Unanchored case-insensitive test of the regex
`是|yes|true|已用|已使用|used` used by `resolveOptionName`. -/
def containsAffirmative (s : Str) : Bool :=
  AFFIRMATIVE_WORDS.any fun w => containsSub (toLowerStr s) w

/-- `resolveOptionName(propertySchema, preferredName)`: pick the
existing select/status option to write — exact preferred name, else the
first option matching the affirmative pattern, else the first option;
the preferred name itself when the schema declares no options. -/
def resolveOptionName (propertySchema : PropSchema) (preferredName : Str) : Str :=
  match propertySchema.options with
  | [] => preferredName
  | first :: rest =>
    let options := first :: rest
    match options.find? fun o => o == preferredName with
    | some o => o
    | none =>
      match options.find? containsAffirmative with
      | some o => o
      | none => first

/-- `buildUsedUpdate(propertySchema)`: the write marking a key used,
per column type; throws for unsupported types. -/
def buildUsedUpdate (propertySchema : PropSchema) : Except JsError PropWrite :=
  if propertySchema.type = str "checkbox" then .ok (.checkbox true)
  else if propertySchema.type = str "select" then
    .ok (.select (resolveOptionName propertySchema (str "是")))
  else if propertySchema.type = str "status" then
    .ok (.status (resolveOptionName propertySchema (str "是")))
  else if propertySchema.type = str "rich_text" then .ok (.richText [str "是"])
  else if propertySchema.type = str "title" then .ok (.titleV [str "是"])
  else .error ⟨none, str "Unsupported used property type: " ++ propertySchema.type⟩

/-- `MAX_RESULT_CHUNK_LENGTH` from `buildResultUpdate`. -/
def MAX_RESULT_CHUNK_LENGTH : Nat := 1900

/-- `MAX_RESULT_CHUNKS` from `buildResultUpdate`. -/
def MAX_RESULT_CHUNKS : Nat := 100

/-- The chunking loop of `buildResultUpdate`: slice off
`MAX_RESULT_CHUNK_LENGTH`-sized pieces while content remains and fewer
than `MAX_RESULT_CHUNKS` chunks have been built. -/
def chunkLoop (content : Str) (built : Nat) : List Str :=
  if content = [] ∨ MAX_RESULT_CHUNKS ≤ built then []
  else
    content.take MAX_RESULT_CHUNK_LENGTH ::
      chunkLoop (content.drop MAX_RESULT_CHUNK_LENGTH) (built + 1)
termination_by content.length
decreasing_by
  simp only [List.length_drop, MAX_RESULT_CHUNK_LENGTH]
  have : content ≠ [] := by tauto
  have : 0 < content.length := List.length_pos.mpr this
  omega

/-- The chunk list stored by `buildResultUpdate`: the sliced chunks,
with the last chunk truncated and suffixed with an ellipsis when the
content would overflow the chunk-count × chunk-length cap. -/
def buildResultChunks (content : Str) : List Str :=
  let chunks := chunkLoop content 0
  if MAX_RESULT_CHUNK_LENGTH * MAX_RESULT_CHUNKS < content.length ∧ chunks ≠ [] then
    chunks.dropLast ++
      [(chunks.getLastD []).take (MAX_RESULT_CHUNK_LENGTH - (str "...").length)
        ++ str "..."]
  else chunks

/-- `buildResultUpdate(propertySchema, content)`: write the chunked
content into a long-text-capable column; throws otherwise. -/
def buildResultUpdate (propertySchema : PropSchema) (content : Str) :
    Except JsError PropWrite :=
  if propertySchema.type = str "rich_text" then .ok (.richText (buildResultChunks content))
  else if propertySchema.type = str "title" then .ok (.titleV (buildResultChunks content))
  else
    .error ⟨none, str "Result property must be rich_text or title (got " ++
      propertySchema.type ++ str ")."⟩

/-! ## Update Executor (`performVoteUpdate` and its callees)

External calls are modelled by an environment of oracles; each oracle
yields the outcome its (retry-wrapped) call settles with.  Every
external operation issued is recorded in a trace. -/

/-- A page as returned by `pages.retrieve`. -/
structure Page where
  properties : List (Str × PropertyValue)
deriving DecidableEq, Repr

/-- One element of `UpdateOutcome.results`. -/
structure TargetResult where
  id : Str
  previous : Int
  next : Int
deriving DecidableEq, Repr

/-- The outcome object returned by `performVoteUpdate`. -/
structure UpdateOutcome where
  updated : Nat
  property : Option Str
  results : List TargetResult
  resultsSaved : Bool
  resultsError : Option Str
deriving DecidableEq, Repr

/-- The results payload attached to a submission: either the raw
`results` field of the request body, or the default
`{ votes: sanitizedVotes }` object built from the sanitized votes. -/
inductive Payload where
  | fromBody (raw : Str)
  | fromVotes (votes : List VoteEntry)
deriving DecidableEq, Repr

/-- Models `JSON.stringify(resultsPayload ?? {})`.  The exact rendering
is irrelevant to the claims (which treat the serialized payload as an
arbitrary string); any total injective-enough rendering stands in for
the JSON serializer. -/
def serializePayload : Payload → Str
  | .fromBody raw => raw
  | .fromVotes votes =>
    str "[" ++
      (votes.map fun v => v.id ++ str ":" ++ str (toString v.count) ++ str ";").flatten
      ++ str "]"

/-- An external operation issued to the record service. -/
inductive NotionOp where
  | retrieveDatabase (dbId : Str)
  | retrievePage (pageId : Str)
  | updatePage (pageId : Str) (propertyName : Str) (value : PropWrite)
deriving DecidableEq, Repr

/-- The environment of a `performVoteUpdate` run: configuration and
operator overrides, plus oracles for the settled outcome of each
external call (the schema caches are elided: a cache hit returns the
same properties map the retrieval would). -/
structure Env where
  databaseId : Str
  keyDatabaseId : Option Str
  keyOverride : Option Str
  usedOverride : Option Str
  resultOverride : Option Str
  voteOverride : Option Str
  keyDbProps : Except JsError (List (Str × PropSchema))
  voteDbProps : Except JsError (List (Str × PropSchema))
  retrievePage : Str → Except JsError Page
  updatePage : Str → Str → Except JsError Unit

/-- The error thrown by the `Key already used.` rejection. -/
def keyAlreadyUsedError : JsError := jsErr "Key already used."

/-- The opening key-check block of `performVoteUpdate` (entered when a
key database is configured and a `keyId` was supplied): fetch the key
database schema, resolve the used-flag column, re-fetch the key page
and reject when the used-flag predicate holds. -/
def keyCheckPhase (env : Env) (kdb k : Str) :
    Except JsError (List (Str × PropSchema)) × List NotionOp :=
  match env.keyDbProps with
  | .error e => (.error e, [.retrieveDatabase kdb])
  | .ok props =>
    match resolveUsedProperty env.usedOverride props with
    | .error e => (.error e, [.retrieveDatabase kdb])
    | .ok usedProperty =>
      match env.retrievePage k with
      | .error e => (.error e, [.retrieveDatabase kdb, .retrievePage k])
      | .ok keyPage =>
        if isUsedPropertyValue (lookupEntry keyPage.properties usedProperty.1) then
          (.error keyAlreadyUsedError, [.retrieveDatabase kdb, .retrievePage k])
        else
          (.ok props, [.retrieveDatabase kdb, .retrievePage k])

/-- The vote-name matcher regex `vote|票|得票|投票` (case-insensitive,
unanchored). -/
def voteNameMatches (name : Str) : Bool :=
  [str "vote", str "票", str "得票", str "投票"].any fun m =>
    containsSub (toLowerStr name) m

/-- `resolveVotePropertyName()`: the operator override if set, else the
first number-typed column of the main database whose name matches the
vote matcher, else the first number-typed column (error if none). -/
def resolveVotePropertyName (env : Env) : Except JsError Str × List NotionOp :=
  match env.voteOverride with
  | some name => (.ok name, [])
  | none =>
    match env.voteDbProps with
    | .error e => (.error e, [.retrieveDatabase env.databaseId])
    | .ok props =>
      match props.filter fun p => p.2.type == str "number" with
      | [] => (.error (jsErr "No number property found for votes."),
          [.retrieveDatabase env.databaseId])
      | first :: rest =>
        let numberProps := first :: rest
        let matched := numberProps.find? fun p => voteNameMatches p.1
        (.ok (matched.getD first).1, [.retrieveDatabase env.databaseId])

/-- The error thrown when the resolved vote column is not numeric on a
target page. -/
def nonNumericVoteError (votePropertyName : Str) : JsError :=
  ⟨none, str "Vote property \"" ++ votePropertyName ++ str "\" is not numeric."⟩

/-- The per-target read–increment–write loop of `performVoteUpdate`
(the source runs it under a bounded worker pool whose result order
matches the input order; the claims proved here do not depend on the
interleaving, so the pool is modelled by the sequential execution). -/
def applyVoteUpdates (env : Env) (votePropertyName : Str) :
    List VoteEntry → Except JsError (List TargetResult) × List NotionOp
  | [] => (.ok [], [])
  | vote :: rest =>
    match env.retrievePage vote.id with
    | .error e => (.error e, [.retrievePage vote.id])
    | .ok page =>
      match lookupEntry page.properties votePropertyName with
      | some (.number n) =>
        let currentValue := n.getD 0
        let nextValue := currentValue + vote.count
        match env.updatePage vote.id votePropertyName with
        | .error e =>
          (.error e, [.retrievePage vote.id,
            .updatePage vote.id votePropertyName (.number nextValue)])
        | .ok _ =>
          match applyVoteUpdates env votePropertyName rest with
          | (r, t) =>
            ((r.map fun rs => ⟨vote.id, currentValue, nextValue⟩ :: rs),
              .retrievePage vote.id ::
                .updatePage vote.id votePropertyName (.number nextValue) :: t)
      | _ => (.error (nonNumericVoteError votePropertyName), [.retrievePage vote.id])

/-- The `if (aggregatedVotes.length > 0)` block of `performVoteUpdate`:
resolve the vote column and apply every delta; yields the resolved
column name (when any) and the per-target results. -/
def votesPhase (env : Env) (aggregatedVotes : List VoteEntry) :
    Except JsError (Option Str × List TargetResult) × List NotionOp :=
  match aggregatedVotes with
  | [] => (.ok (none, []), [])
  | _ :: _ =>
    match resolveVotePropertyName env with
    | (.error e, t) => (.error e, t)
    | (.ok votePropertyName, t) =>
      match applyVoteUpdates env votePropertyName aggregatedVotes with
      | (.error e, t2) => (.error e, t ++ t2)
      | (.ok results, t2) => (.ok (some votePropertyName, results), t ++ t2)

/-- `updateKeyResults(keyId, resultsPayload, {properties})`: resolve the
key, used and result columns, serialize the payload into the result
column and write it. -/
def updateKeyResultsCall (env : Env) (properties : List (Str × PropSchema))
    (keyId : Str) (resultsPayload : Payload) : Except JsError Unit × List NotionOp :=
  match resolveKeyProperty env.keyOverride properties with
  | .error e => (.error e, [])
  | .ok keyProperty =>
    match resolveUsedProperty env.usedOverride properties with
    | .error e => (.error e, [])
    | .ok usedProperty =>
      match resolveResultProperty env.resultOverride properties
          keyProperty.1 usedProperty.1 with
      | .error e => (.error e, [])
      | .ok resultProperty =>
        match buildResultUpdate resultProperty.2 (serializePayload resultsPayload) with
        | .error e => (.error e, [])
        | .ok update =>
          (env.updatePage keyId resultProperty.1,
            [.updatePage keyId resultProperty.1 update])

/-- `markKeyUsed(keyId, {properties})`: resolve the used column, build
its affirmative write and issue it. -/
def markKeyUsedCall (env : Env) (properties : List (Str × PropSchema)) (keyId : Str) :
    Except JsError Unit × List NotionOp :=
  match resolveUsedProperty env.usedOverride properties with
  | .error e => (.error e, [])
  | .ok usedProperty =>
    match buildUsedUpdate usedProperty.2 with
    | .error e => (.error e, [])
    | .ok usedUpdate =>
      (env.updatePage keyId usedProperty.1, [.updatePage keyId usedProperty.1 usedUpdate])

/-- The closing block of `performVoteUpdate`: write the result payload,
then mark the key used; each failure is caught and recorded in
`resultsError` (messages concatenated with `"; "` when both fail)
without aborting the other write or the call. -/
def keyWritesPhase (env : Env) (properties : List (Str × PropSchema))
    (keyId : Str) (resultsPayload : Payload) : (Bool × Option Str) × List NotionOp :=
  let r1 := updateKeyResultsCall env properties keyId resultsPayload
  let r2 := markKeyUsedCall env properties keyId
  let resultsSaved := match r1.1 with | .ok _ => true | .error _ => false
  let firstError : Option Str := match r1.1 with
    | .ok _ => none
    | .error e => some e.message
  let resultsError : Option Str := match r2.1 with
    | .ok _ => firstError
    | .error e =>
      match firstError with
      | some m => some (m ++ str "; " ++ e.message)
      | none => some e.message
  ((resultsSaved, resultsError), r1.2 ++ r2.2)

/-- `performVoteUpdate({keyId, aggregatedVotes, resultsPayload})`.
`keyId = none` models the falsy (empty) `keyId`; the guard
`keyDatabaseId && keyId` requires both a configured key database and a
supplied key. -/
def performVoteUpdate (env : Env) (keyId : Option Str)
    (aggregatedVotes : List VoteEntry) (resultsPayload : Payload) :
    Except JsError UpdateOutcome × List NotionOp :=
  match env.keyDatabaseId, keyId with
  | some kdb, some k =>
    match keyCheckPhase env kdb k with
    | (.error e, t1) => (.error e, t1)
    | (.ok props, t1) =>
      match votesPhase env aggregatedVotes with
      | (.error e, t2) => (.error e, t1 ++ t2)
      | (.ok (votePropertyName, results), t2) =>
        match keyWritesPhase env props k resultsPayload with
        | ((resultsSaved, resultsError), t3) =>
          (.ok { updated := results.length, property := votePropertyName,
                 results := results, resultsSaved := resultsSaved,
                 resultsError := resultsError }, t1 ++ t2 ++ t3)
  | _, _ =>
    match votesPhase env aggregatedVotes with
    | (.error e, t2) => (.error e, t2)
    | (.ok (votePropertyName, results), t2) =>
      (.ok { updated := results.length, property := votePropertyName,
             results := results, resultsSaved := false, resultsError := none }, t2)

/-! ## Job submission (`POST /api/votes`) -/

/-- A raw vote entry from the request body: `id` is `some s` exactly
when the field was a string, `count` is `some n` exactly when the field
was a finite number (numeric values are modelled as integers; the
claims do not depend on fractional counts). -/
structure RawVote where
  id : Option Str
  count : Option Int
deriving DecidableEq, Repr

/-- The parsed request body of `POST /api/votes`. -/
structure VotesRequest where
  keyId : Option Str
  votes : Option (List RawVote)
  results : Option Str
deriving DecidableEq, Repr

/-- Server configuration relevant to the route (a `none` models an
unset or empty — falsy — environment variable). -/
structure ServerConfig where
  databaseId : Option Str
  notionApiKey : Option Str
  keyDatabaseId : Option Str
deriving DecidableEq, Repr

/-- The response sent by the route. -/
inductive VotesResponse where
  | missingConfig (message : Str)
  | missingKey (message : Str)
  | saveFailed (message : Str)
  | accepted (jobId : Str)
deriving DecidableEq, Repr

/-- The durable job record persisted by `persistVoteRecord`. -/
structure JobRecord where
  jobId : Str
  receivedAt : Str
  status : Str
  keyId : Option Str
  votes : List VoteEntry
  results : Payload
deriving DecidableEq, Repr

/-- The in-memory job handed to `enqueueVoteJob`. -/
structure EnqueuedJob where
  jobId : Str
  keyId : Str
  aggregatedVotes : List VoteEntry
  sanitizedVotes : List VoteEntry
  resultsPayload : Payload
deriving DecidableEq, Repr

/-- The externally observable effects of one run of the route handler:
the response, the job record durably persisted (if any), and the job
enqueued for asynchronous processing (if any). -/
structure SubmitEffects where
  response : VotesResponse
  persisted : Option JobRecord
  enqueued : Option EnqueuedJob
deriving DecidableEq, Repr

/-- The sanitization pipeline of the route: coerce malformed fields,
then keep entries with a non-empty id and a positive count. -/
def sanitizeVotes (votes : List RawVote) : List VoteEntry :=
  (votes.map fun v => VoteEntry.mk (v.id.getD []) (v.count.getD 0)).filter
    fun v => v.id != [] && 0 < v.count

/-- The `POST /api/votes` handler.  `persistResult` is the oracle for
the initial durable write (`persistVoteRecord`); `jobId` models
`createJobId()` and `now` the `receivedAt` timestamp.  The handler
persists the `queued` job record and, only when that write succeeds,
enqueues the job and responds with the job id; it never waits on — nor
even references — the job's asynchronous execution. -/
def handleVotesPost (cfg : ServerConfig) (persistResult : Except Str Unit)
    (jobId now : Str) (req : VotesRequest) : SubmitEffects :=
  match cfg.databaseId, cfg.notionApiKey with
  | some _, some _ =>
    let keyId := req.keyId.getD []
    if cfg.keyDatabaseId.isSome ∧ keyId = [] then
      { response := .missingKey (str "投票前需要输入密码。"),
        persisted := none, enqueued := none }
    else
      let sanitizedVotes := sanitizeVotes (req.votes.getD [])
      let aggregatedVotes := aggregateVotes sanitizedVotes
      let resultsPayload := match req.results with
        | some raw => Payload.fromBody raw
        | none => Payload.fromVotes sanitizedVotes
      let record : JobRecord :=
        { jobId := jobId, receivedAt := now, status := str "queued",
          keyId := if keyId = [] then none else some keyId,
          votes := sanitizedVotes, results := resultsPayload }
      match persistResult with
      | .ok _ =>
        { response := .accepted jobId, persisted := some record,
          enqueued := some (EnqueuedJob.mk jobId keyId aggregatedVotes
            sanitizedVotes resultsPayload) }
      | .error m =>
        { response := .saveFailed m, persisted := none, enqueued := none }
  | _, _ =>
    { response := .missingConfig (str "Set NOTION_DATABASE_ID and NOTION_API_KEY in .env"),
      persisted := none, enqueued := none }

/-! ## Theorems about the Retry Controller -/

/-- The retryable statuses, spelled out. -/
theorem isNotionRetryable_iff (e : JsError) :
    isNotionRetryable e = true ↔
      e.status = some 429 ∨ e.status = some 500 ∨
        e.status = some 502 ∨ e.status = some 503 := by
  simp [isNotionRetryable]
  tauto

theorem retryGo_bounds {α : Type} (task : Nat → Except JsError α)
    (lastError : Option JsError) (attempt fuel : Nat)
    (h : attempt + fuel = MAX_NOTION_RETRIES + 1) :
    (retryGo task lastError attempt fuel).delays ≤ MAX_NOTION_RETRIES - attempt ∧
      (retryGo task lastError attempt fuel).attempts ≤ fuel := by
  induction fuel generalizing attempt lastError with
  | zero => simp [retryGo]
  | succ fuel ih =>
    rcases htask : task attempt with e | v
    · by_cases hret : isNotionRetryable e = true
      · by_cases hmax : attempt = MAX_NOTION_RETRIES
        · subst hmax
          simp [retryGo, htask, hret]
        · have hrec := ih (some e) (attempt + 1) (by omega)
          simp [retryGo, htask, hret, hmax]
          omega
      · have hret' : isNotionRetryable e = false := by
          cases hb : isNotionRetryable e
          · rfl
          · exact absurd hb hret
        simp [retryGo, htask, hret']
    · simp [retryGo, htask]

/-- Claim C4: the retry controller retries a failure if and only if its
status is 429, 500, 502 or 503; any other failure propagates
immediately (bare, with no delay, after a single attempt); at most 4
total attempts (3 delays) are made; and a task failing with a retryable
status exactly twice then succeeding returns the successful result
after exactly 2 delays (3 attempts). -/
theorem withNotionRetry_claim {α : Type} (task : Nat → Except JsError α) :
    (∀ e, task 0 = .error e →
      ¬(e.status = some 429 ∨ e.status = some 500 ∨
          e.status = some 502 ∨ e.status = some 503) →
      withNotionRetry task = ⟨.error (.bare e), 0, 1⟩)
  ∧ (∀ e, task 0 = .error e →
      (e.status = some 429 ∨ e.status = some 500 ∨
          e.status = some 502 ∨ e.status = some 503) →
      1 ≤ (withNotionRetry task).delays)
  ∧ (withNotionRetry task).attempts ≤ 4
  ∧ (withNotionRetry task).delays ≤ 3
  ∧ (∀ e0 e1 v, task 0 = .error e0 →
      (e0.status = some 429 ∨ e0.status = some 500 ∨
          e0.status = some 502 ∨ e0.status = some 503) →
      task 1 = .error e1 →
      (e1.status = some 429 ∨ e1.status = some 500 ∨
          e1.status = some 502 ∨ e1.status = some 503) →
      task 2 = .ok v →
      withNotionRetry task = ⟨.ok v, 2, 3⟩) := by
  have hbounds := retryGo_bounds task none 0 (MAX_NOTION_RETRIES + 1) (by omega)
  refine ⟨?_, ?_, ?_, ?_, ?_⟩
  · intro e h0 hne
    have hret : isNotionRetryable e = false := by
      cases hb : isNotionRetryable e
      · rfl
      · exact absurd ((isNotionRetryable_iff e).mp hb) hne
    simp [withNotionRetry, retryGo, h0, hret, MAX_NOTION_RETRIES]
  · intro e h0 hyes
    have hret : isNotionRetryable e = true := (isNotionRetryable_iff e).mpr hyes
    simp [withNotionRetry, retryGo, h0, hret, MAX_NOTION_RETRIES]
  · simpa [MAX_NOTION_RETRIES] using hbounds.2
  · simpa [MAX_NOTION_RETRIES] using hbounds.1
  · intro e0 e1 v h0 hy0 h1 hy1 h2
    have hr0 : isNotionRetryable e0 = true := (isNotionRetryable_iff e0).mpr hy0
    have hr1 : isNotionRetryable e1 = true := (isNotionRetryable_iff e1).mpr hy1
    simp [withNotionRetry, retryGo, h0, hr0, h1, hr1, h2, MAX_NOTION_RETRIES]

/-- A task failing with a 429 on its first two invocations, then
succeeding. -/
def twoFailTask : Nat → Except JsError Nat := fun n =>
  if n < 2 then .error ⟨some 429, str "rate limited"⟩ else .ok 7

/-- A task failing with a status other than 429/500/502/503. -/
def teapotTask : Nat → Except JsError Nat := fun _ =>
  .error ⟨some 418, str "teapot"⟩

/-- Witness for C4: the two-failures-then-success scenario and the
immediate propagation of a non-retryable failure, at concrete tasks. -/
theorem withNotionRetry_claim_witness :
    withNotionRetry twoFailTask = ⟨.ok 7, 2, 3⟩ ∧
      withNotionRetry teapotTask =
        ⟨.error (.bare ⟨some 418, str "teapot"⟩), 0, 1⟩ := by
  constructor
  · exact (withNotionRetry_claim twoFailTask).2.2.2.2 ⟨some 429, str "rate limited"⟩
      ⟨some 429, str "rate limited"⟩ 7 (by decide) (by decide) (by decide) (by decide)
      (by decide)
  · exact (withNotionRetry_claim teapotTask).1 ⟨some 418, str "teapot"⟩
      (by decide) (by decide)

/-- A task that fails with a 429 on every invocation. -/
def alwaysRateLimitedTask : Nat → Except JsError Nat := fun _ =>
  .error ⟨some 429, str "rate limited"⟩

/-- Counterexample to claim C5: exhausting the retries on an
always-rate-limited task re-raises the bare last failure after 4
attempts; the raised failure carries no exhaustion tag, so it is not a
`RetryExhausted`-distinguishable error. -/
theorem withNotionRetry_no_exhausted_tag :
    withNotionRetry alwaysRateLimitedTask =
        ⟨.error (.bare ⟨some 429, str "rate limited"⟩), 3, 4⟩ ∧
      exhaustedOutcome (withNotionRetry alwaysRateLimitedTask).result = false := by
  constructor
  · decide
  · decide

/-- Claim C5 as amended: when the retry controller exhausts its maximum
attempt count on retryable failures, it re-raises the last observed
failure itself — the bare underlying error, with no exhaustion tag. -/
theorem withNotionRetry_exhaust_rethrows_bare {α : Type}
    (task : Nat → Except JsError α) (e0 e1 e2 e3 : JsError)
    (h0 : task 0 = .error e0) (hr0 : isNotionRetryable e0 = true)
    (h1 : task 1 = .error e1) (hr1 : isNotionRetryable e1 = true)
    (h2 : task 2 = .error e2) (hr2 : isNotionRetryable e2 = true)
    (h3 : task 3 = .error e3) (hr3 : isNotionRetryable e3 = true) :
    withNotionRetry task = ⟨.error (.bare e3), 3, 4⟩ := by
  simp [withNotionRetry, retryGo, h0, hr0, h1, hr1, h2, hr2, h3, hr3,
    MAX_NOTION_RETRIES]

/-- Witness for the amended C5 at a concrete always-failing task. -/
theorem withNotionRetry_exhaust_rethrows_bare_witness :
    withNotionRetry alwaysRateLimitedTask =
      ⟨.error (.bare ⟨some 429, str "rate limited"⟩), 3, 4⟩ :=
  withNotionRetry_exhaust_rethrows_bare alwaysRateLimitedTask
    ⟨some 429, str "rate limited"⟩ ⟨some 429, str "rate limited"⟩
    ⟨some 429, str "rate limited"⟩ ⟨some 429, str "rate limited"⟩
    (by decide) (by decide) (by decide) (by decide)
    (by decide) (by decide) (by decide) (by decide)

/-! ## Theorems about the Vote Aggregator -/

/-- The sum of the counts of the input entries carrying a given id
(the claim's "sum of all input counts sharing that targetId"). -/
def sumForId (id : Str) (votes : List VoteEntry) : Int :=
  ((votes.filter fun v => v.id == id).map VoteEntry.count).sum

/-- The input target ids in first-seen order, deduplicated (the
claim's "targets appear in first-seen input order"). -/
def firstSeenIds (ids : List Str) : List Str :=
  ids.foldl (fun acc i => if i ∈ acc then acc else acc ++ [i]) []

theorem lookupEntry_mapSet (m : List (Str × Int)) (k : Str) (v : Int) (key : Str) :
    lookupEntry (mapSet m k v) key =
      if k = key then some v else lookupEntry m key := by
  induction m with
  | nil => by_cases hk : k = key <;> simp [mapSet, lookupEntry, hk]
  | cons p rest ih =>
    by_cases hpk : p.1 = k
    · by_cases hk : k = key
      · simp [mapSet, lookupEntry, hpk, hk]
      · have h2 : ¬p.1 = key := by rw [hpk]; exact hk
        simp [mapSet, lookupEntry, hpk, hk, h2]
    · by_cases hpkey : p.1 = key
      · have hk : ¬k = key := fun hh => hpk (hpkey.trans hh.symm)
        have hk2 : ¬key = k := fun hh => hk hh.symm
        simp [mapSet, lookupEntry, hpk, hpkey, hk, hk2]
      · simp [mapSet, lookupEntry, hpk, hpkey, ih]

theorem keys_mapSet (m : List (Str × Int)) (k : Str) (v : Int) :
    (mapSet m k v).map Prod.fst =
      if k ∈ m.map Prod.fst then m.map Prod.fst else m.map Prod.fst ++ [k] := by
  induction m with
  | nil => simp [mapSet]
  | cons p rest ih =>
    by_cases hpk : p.1 = k
    · simp [mapSet, hpk]
    · have hk : ¬k = p.1 := fun hh => hpk hh.symm
      by_cases hmem : k ∈ rest.map Prod.fst <;>
        simp [mapSet, hpk, hk, hmem, ih]

theorem sum_mapSet_add (m : List (Str × Int)) (k : Str) (c : Int) :
    ((mapSet m k ((lookupEntry m k).getD 0 + c)).map Prod.snd).sum =
      (m.map Prod.snd).sum + c := by
  induction m with
  | nil => simp [mapSet, lookupEntry]
  | cons p rest ih =>
    by_cases hpk : p.1 = k
    · simp [mapSet, lookupEntry, hpk]
      ring
    · simp [mapSet, lookupEntry, hpk, ih]
      ring

theorem foldAgg_lookup_some (votes : List VoteEntry) (acc : List (Str × Int))
    (key : Str) (v : Int) (h : lookupEntry acc key = some v) :
    lookupEntry (votes.foldl aggregateStep acc) key =
      some (v + sumForId key votes) := by
  induction votes generalizing acc v with
  | nil => simp [sumForId, h]
  | cons x t ih =>
    by_cases hx : x.id = key
    · have hstep : lookupEntry (aggregateStep acc x) key = some (v + x.count) := by
        simp [aggregateStep, lookupEntry_mapSet, hx, h]
      have := ih (aggregateStep acc x) (v + x.count) hstep
      simp only [List.foldl_cons] at *
      rw [this]
      simp [sumForId, hx]
      ring
    · have hstep : lookupEntry (aggregateStep acc x) key = some v := by
        simp [aggregateStep, lookupEntry_mapSet, hx, h]
      have := ih (aggregateStep acc x) v hstep
      simp only [List.foldl_cons] at *
      rw [this]
      simp [sumForId, hx]

theorem foldAgg_lookup_none (votes : List VoteEntry) (acc : List (Str × Int))
    (key : Str) (h : lookupEntry acc key = none) :
    lookupEntry (votes.foldl aggregateStep acc) key =
      if key ∈ votes.map VoteEntry.id then some (sumForId key votes) else none := by
  induction votes generalizing acc with
  | nil => simp [h]
  | cons x t ih =>
    by_cases hx : x.id = key
    · have hstep : lookupEntry (aggregateStep acc x) key = some (0 + x.count) := by
        simp [aggregateStep, lookupEntry_mapSet, hx, h]
      have := foldAgg_lookup_some t (aggregateStep acc x) key (0 + x.count) hstep
      simp only [List.foldl_cons] at *
      rw [this]
      simp [sumForId, hx]
    · have hstep : lookupEntry (aggregateStep acc x) key = none := by
        simp [aggregateStep, lookupEntry_mapSet, hx, h]
      have := ih (aggregateStep acc x) hstep
      simp only [List.foldl_cons] at *
      rw [this]
      have hxk : ¬key = x.id := fun hh => hx hh.symm
      simp [sumForId, hx, hxk]

theorem foldAgg_keys (votes : List VoteEntry) (acc : List (Str × Int)) :
    (votes.foldl aggregateStep acc).map Prod.fst =
      (votes.map VoteEntry.id).foldl
        (fun ks i => if i ∈ ks then ks else ks ++ [i]) (acc.map Prod.fst) := by
  induction votes generalizing acc with
  | nil => simp
  | cons x t ih =>
    simp only [List.foldl_cons, List.map_cons]
    rw [ih]
    congr 1
    simp [aggregateStep, keys_mapSet]

theorem foldAgg_sum (votes : List VoteEntry) (acc : List (Str × Int)) :
    ((votes.foldl aggregateStep acc).map Prod.snd).sum =
      (acc.map Prod.snd).sum + (votes.map VoteEntry.count).sum := by
  induction votes generalizing acc with
  | nil => simp
  | cons x t ih =>
    simp only [List.foldl_cons, List.map_cons, List.sum_cons]
    rw [ih]
    simp [aggregateStep, sum_mapSet_add]
    ring

theorem nodup_firstSeenFold (ids : List Str) (init : List Str) (h : init.Nodup) :
    (ids.foldl (fun ks i => if i ∈ ks then ks else ks ++ [i]) init).Nodup := by
  induction ids generalizing init with
  | nil => simpa
  | cons i t ih =>
    simp only [List.foldl_cons]
    by_cases hmem : i ∈ init
    · simpa [hmem] using ih init h
    · have : (init ++ [i]).Nodup := by
        simp [List.nodup_append, h, hmem]
      simpa [hmem] using ih (init ++ [i]) this

theorem lookupEntry_of_mem_nodup (m : List (Str × Int)) (k : Str) (v : Int)
    (hnd : (m.map Prod.fst).Nodup) (hmem : (k, v) ∈ m) :
    lookupEntry m k = some v := by
  induction m with
  | nil => simp at hmem
  | cons p rest ih =>
    rw [List.map_cons, List.nodup_cons] at hnd
    rcases List.mem_cons.mp hmem with heq | hrest
    · simp [lookupEntry, ← heq]
    · have hk : k ∈ rest.map Prod.fst :=
        List.mem_map_of_mem Prod.fst hrest
      have hne : ¬p.1 = k := fun hh => hnd.1 (hh ▸ hk)
      simp only [lookupEntry, hne, if_false]
      exact ih hnd.2 hrest

/-- Claim C2: `aggregateVotes` is a pure function whose output has
pairwise-distinct target ids, whose counts sum to the sum of the input
counts, whose targets appear in first-seen input order, and in which
each output count is the sum of all input counts sharing that id. -/
theorem aggregateVotes_claim (votes : List VoteEntry) :
    ((aggregateVotes votes).map VoteEntry.id).Nodup
  ∧ ((aggregateVotes votes).map VoteEntry.count).sum =
      (votes.map VoteEntry.count).sum
  ∧ (aggregateVotes votes).map VoteEntry.id = firstSeenIds (votes.map VoteEntry.id)
  ∧ ∀ e ∈ aggregateVotes votes, e.count = sumForId e.id votes := by
  have hids : (aggregateVotes votes).map VoteEntry.id =
      (votes.foldl aggregateStep []).map Prod.fst := by
    simp [aggregateVotes, List.map_map]
  have hkeys := foldAgg_keys votes []
  have hnd : ((votes.foldl aggregateStep []).map Prod.fst).Nodup := by
    rw [hkeys]
    exact nodup_firstSeenFold _ [] List.nodup_nil
  refine ⟨?_, ?_, ?_, ?_⟩
  · rw [hids]; exact hnd
  · have hsum := foldAgg_sum votes []
    have hcounts : (aggregateVotes votes).map VoteEntry.count =
        (votes.foldl aggregateStep []).map Prod.snd := by
      simp [aggregateVotes, List.map_map]
    rw [hcounts, hsum]
    simp
  · rw [hids, hkeys]
    simp [firstSeenIds]
  · intro e he
    rcases List.mem_map.mp he with ⟨p, hp, hpe⟩
    have hpair : (e.id, e.count) ∈ votes.foldl aggregateStep [] := by
      have h1 : p.1 = e.id := by rw [← hpe]
      have h2 : p.2 = e.count := by rw [← hpe]
      rwa [← h1, ← h2]
    have hlook := lookupEntry_of_mem_nodup _ _ _ hnd hpair
    have hnone : lookupEntry ([] : List (Str × Int)) e.id = none := rfl
    have := foldAgg_lookup_none votes [] e.id hnone
    rw [hlook] at this
    by_cases hmem : e.id ∈ votes.map VoteEntry.id
    · rw [if_pos hmem] at this
      exact Option.some.inj this
    · rw [if_neg hmem] at this
      exact absurd this (by simp)

/-- Witness for C2: the aggregate properties instantiated at a concrete
vote list with a duplicated target. -/
theorem aggregateVotes_claim_witness :
    ((aggregateVotes [⟨str "a", 1⟩, ⟨str "a", 1⟩, ⟨str "b", 2⟩]).map
        VoteEntry.id).Nodup
  ∧ ((aggregateVotes [⟨str "a", 1⟩, ⟨str "a", 1⟩, ⟨str "b", 2⟩]).map
        VoteEntry.count).sum =
      (([⟨str "a", 1⟩, ⟨str "a", 1⟩, ⟨str "b", 2⟩] :
          List VoteEntry).map VoteEntry.count).sum
  ∧ (aggregateVotes [⟨str "a", 1⟩, ⟨str "a", 1⟩, ⟨str "b", 2⟩]).map VoteEntry.id =
      firstSeenIds (([⟨str "a", 1⟩, ⟨str "a", 1⟩, ⟨str "b", 2⟩] :
          List VoteEntry).map VoteEntry.id)
  ∧ ∀ e ∈ aggregateVotes [⟨str "a", 1⟩, ⟨str "a", 1⟩, ⟨str "b", 2⟩],
      e.count = sumForId e.id [⟨str "a", 1⟩, ⟨str "a", 1⟩, ⟨str "b", 2⟩] :=
  aggregateVotes_claim [⟨str "a", 1⟩, ⟨str "a", 1⟩, ⟨str "b", 2⟩]

/-! ## Theorems about result-payload chunking -/

theorem chunkLoop_length_le (content : Str) (built : Nat) :
    (chunkLoop content built).length ≤ MAX_RESULT_CHUNKS - built := by
  induction content, built using chunkLoop.induct with
  | case1 content built h1 =>
    rw [chunkLoop, if_pos h1]
    simp
  | case2 content built h1 ih =>
    rw [chunkLoop, if_neg h1]
    have hb : built < MAX_RESULT_CHUNKS := by
      rcases not_or.mp h1 with ⟨_, hh⟩
      omega
    simp only [List.length_cons]
    omega

theorem chunkLoop_chunk_le (content : Str) (built : Nat) :
    ∀ c ∈ chunkLoop content built, c.length ≤ MAX_RESULT_CHUNK_LENGTH := by
  induction content, built using chunkLoop.induct with
  | case1 content built h1 =>
    rw [chunkLoop, if_pos h1]
    simp
  | case2 content built h1 ih =>
    rw [chunkLoop, if_neg h1]
    intro c hc
    rcases List.mem_cons.mp hc with rfl | hmem
    · simp
    · exact ih c hmem

theorem chunkLoop_flatten (content : Str) (built : Nat)
    (h : content.length ≤ (MAX_RESULT_CHUNKS - built) * MAX_RESULT_CHUNK_LENGTH) :
    (chunkLoop content built).flatten = content := by
  induction content, built using chunkLoop.induct with
  | case1 content built h1 =>
    rw [chunkLoop, if_pos h1]
    rcases h1 with rfl | hb
    · rfl
    · have : (MAX_RESULT_CHUNKS - built) * MAX_RESULT_CHUNK_LENGTH = 0 := by
        simp [MAX_RESULT_CHUNKS] at hb ⊢
        omega
      rw [this] at h
      have : content = [] := List.eq_nil_of_length_eq_zero (by omega)
      simp [this]
  | case2 content built h1 ih =>
    rw [chunkLoop, if_neg h1]
    have hb : built < MAX_RESULT_CHUNKS := by
      rcases not_or.mp h1 with ⟨_, hh⟩
      omega
    have hdrop : (content.drop MAX_RESULT_CHUNK_LENGTH).length =
        content.length - MAX_RESULT_CHUNK_LENGTH := List.length_drop _ _
    have hrec := ih (by
      rw [hdrop]
      simp only [MAX_RESULT_CHUNKS, MAX_RESULT_CHUNK_LENGTH] at h hb ⊢
      omega)
    simp only [List.flatten_cons, hrec]
    exact List.take_append_drop _ _

theorem chunkLoop_ne_nil (content : Str) (built : Nat)
    (hc : content ≠ []) (hb : built < MAX_RESULT_CHUNKS) :
    chunkLoop content built ≠ [] := by
  rw [chunkLoop, if_neg (by push_neg; exact ⟨hc, by omega⟩)]
  simp

theorem flatten_length_le_of_bounds (cs : List Str) (L : Nat)
    (h : ∀ c ∈ cs, c.length ≤ L) : cs.flatten.length ≤ cs.length * L := by
  induction cs with
  | nil => simp
  | cons c rest ih =>
    simp only [List.flatten_cons, List.length_append, List.length_cons]
    have h1 := h c (List.mem_cons_self c rest)
    have h2 := ih fun d hd => h d (List.mem_cons_of_mem c hd)
    calc c.length + rest.flatten.length ≤ L + rest.length * L := by omega
    _ = (rest.length + 1) * L := by ring

/-- Claim C6: the stored result chunks each fit the maximum chunk
length, are at most the maximum chunk count; a payload fitting within
the chunk-count × chunk-length cap is stored verbatim (the chunk
concatenation equals the payload), and an overflowing payload is stored
truncated within the cap with a visible `...` marker at the end. -/
theorem buildResultChunks_claim (content : Str) :
    (∀ c ∈ buildResultChunks content, c.length ≤ MAX_RESULT_CHUNK_LENGTH)
  ∧ (buildResultChunks content).length ≤ MAX_RESULT_CHUNKS
  ∧ (content.length ≤ MAX_RESULT_CHUNK_LENGTH * MAX_RESULT_CHUNKS →
      (buildResultChunks content).flatten = content)
  ∧ (MAX_RESULT_CHUNK_LENGTH * MAX_RESULT_CHUNKS < content.length →
      (buildResultChunks content).flatten.length ≤
          MAX_RESULT_CHUNK_LENGTH * MAX_RESULT_CHUNKS
        ∧ List.IsSuffix (str "...") (buildResultChunks content).flatten) := by
  have hlen := chunkLoop_length_le content 0
  have helem := chunkLoop_chunk_le content 0
  by_cases hover : MAX_RESULT_CHUNK_LENGTH * MAX_RESULT_CHUNKS < content.length
  · have hne : chunkLoop content 0 ≠ [] := by
      apply chunkLoop_ne_nil
      · intro hnil
        rw [hnil] at hover
        simp [MAX_RESULT_CHUNK_LENGTH, MAX_RESULT_CHUNKS] at hover
      · simp [MAX_RESULT_CHUNKS]
    have hres : buildResultChunks content =
        (chunkLoop content 0).dropLast ++
          [((chunkLoop content 0).getLastD []).take
              (MAX_RESULT_CHUNK_LENGTH - (str "...").length) ++ str "..."] := by
      rw [buildResultChunks, if_pos ⟨hover, hne⟩]
    have helem' : ∀ c ∈ buildResultChunks content,
        c.length ≤ MAX_RESULT_CHUNK_LENGTH := by
      rw [hres]
      intro c hc
      rcases List.mem_append.mp hc with hdl | hlast
      · exact helem c ((List.dropLast_sublist _).subset hdl)
      · rcases List.mem_singleton.mp hlast with rfl
        simp only [List.length_append]
        have := List.length_take_le
          (MAX_RESULT_CHUNK_LENGTH - (str "...").length)
          ((chunkLoop content 0).getLastD [])
        simp [MAX_RESULT_CHUNK_LENGTH, str] at this ⊢
    have hcount : (buildResultChunks content).length ≤ MAX_RESULT_CHUNKS := by
      rw [hres]
      simp only [List.length_append, List.length_dropLast, List.length_cons,
        List.length_nil]
      have : 1 ≤ (chunkLoop content 0).length := List.length_pos.mpr hne
      omega
    refine ⟨helem', hcount, fun hfits => absurd hfits (by omega), fun _ => ⟨?_, ?_⟩⟩
    · calc (buildResultChunks content).flatten.length ≤
          (buildResultChunks content).length * MAX_RESULT_CHUNK_LENGTH :=
            flatten_length_le_of_bounds _ _ helem'
      _ ≤ MAX_RESULT_CHUNKS * MAX_RESULT_CHUNK_LENGTH :=
            Nat.mul_le_mul_right _ hcount
      _ = MAX_RESULT_CHUNK_LENGTH * MAX_RESULT_CHUNKS := Nat.mul_comm _ _
    · rw [hres]
      refine ⟨(chunkLoop content 0).dropLast.flatten ++
        ((chunkLoop content 0).getLastD []).take
          (MAX_RESULT_CHUNK_LENGTH - (str "...").length), ?_⟩
      simp [List.flatten_append, List.append_assoc]
  · have hres : buildResultChunks content = chunkLoop content 0 := by
      rw [buildResultChunks]
      rw [if_neg (by intro hh; exact hover hh.1)]
    refine ⟨by rw [hres]; exact helem, by rw [hres]; simpa using hlen,
      fun _ => ?_, fun hh => absurd hh hover⟩
    rw [hres]
    apply chunkLoop_flatten
    simp only [MAX_RESULT_CHUNK_LENGTH, MAX_RESULT_CHUNKS] at hover ⊢
    omega

/-- Witness for C6: a short payload is stored verbatim; a payload one
character over the cap is stored within the cap and ends with the
ellipsis marker. -/
theorem buildResultChunks_claim_witness :
    (buildResultChunks (str "hello")).flatten = str "hello"
  ∧ ((buildResultChunks (List.replicate 190001 'x')).flatten.length ≤
        MAX_RESULT_CHUNK_LENGTH * MAX_RESULT_CHUNKS
      ∧ List.IsSuffix (str "...")
          (buildResultChunks (List.replicate 190001 'x')).flatten) := by
  constructor
  · exact (buildResultChunks_claim (str "hello")).2.2.1 (by decide)
  · exact (buildResultChunks_claim (List.replicate 190001 'x')).2.2.2
      (by rw [List.length_replicate]
          norm_num [MAX_RESULT_CHUNK_LENGTH, MAX_RESULT_CHUNKS])

/-! ## Theorems about used-flag role resolution -/

/-- Claim C7: with no operator override, a schema containing a column
named in the used exact-name list resolves the used-flag role to an
exact-named column — whatever fuzzy-matching candidates are also
present — and when that exact-named column is the only one from the
list, the resolution returns exactly it. -/
theorem resolveUsedProperty_exact_first (properties : List (Str × PropSchema))
    (n : Str) (s : PropSchema)
    (h1 : n ∈ KEY_USED_EXACT_NAMES)
    (h2 : lookupEntry properties n = some s) :
    (∃ m t, resolveUsedProperty none properties = .ok (m, t) ∧
        m ∈ KEY_USED_EXACT_NAMES ∧ lookupEntry properties m = some t)
  ∧ ((∀ m ∈ KEY_USED_EXACT_NAMES, m ≠ n → lookupEntry properties m = none) →
      resolveUsedProperty none properties = .ok (n, s)) := by
  constructor
  · have hsome : (findExactName properties KEY_USED_EXACT_NAMES).isSome = true := by
      rw [findExactName, List.findSome?_isSome_iff]
      exact ⟨n, h1, by simp [h2]⟩
    rcases Option.isSome_iff_exists.mp hsome with ⟨r, hr⟩
    rcases List.exists_of_findSome?_eq_some hr with ⟨m, hm, hf⟩
    rcases Option.map_eq_some'.mp hf with ⟨t, ht, hrt⟩
    refine ⟨m, t, ?_, hm, ht⟩
    simp only [resolveUsedProperty, Option.none_bind, hr]
    exact congrArg Except.ok hrt.symm
  · intro huniq
    have hfind : findExactName properties KEY_USED_EXACT_NAMES = some (n, s) := by
      have hmem := h1
      simp only [KEY_USED_EXACT_NAMES, List.mem_cons, List.not_mem_nil, or_false] at hmem
      rcases hmem with rfl | rfl | rfl | rfl
      · simp [findExactName, KEY_USED_EXACT_NAMES, List.findSome?_cons, h2]
      · have e1 := huniq (str "是否已经使用？") (by decide) (by decide)
        simp [findExactName, KEY_USED_EXACT_NAMES, List.findSome?_cons, e1, h2]
      · have e1 := huniq (str "是否已经使用？") (by decide) (by decide)
        have e2 := huniq (str "是否已经使用") (by decide) (by decide)
        simp [findExactName, KEY_USED_EXACT_NAMES, List.findSome?_cons, e1, e2, h2]
      · have e1 := huniq (str "是否已经使用？") (by decide) (by decide)
        have e2 := huniq (str "是否已经使用") (by decide) (by decide)
        have e3 := huniq (str "是否已使用") (by decide) (by decide)
        simp [findExactName, KEY_USED_EXACT_NAMES, List.findSome?_cons, e1, e2, e3, h2]
    simp only [resolveUsedProperty, Option.none_bind, hfind]

/-- A demonstration key-database schema: a fuzzy "used" candidate
(`状态`, matching the `状态` matcher) enumerated before an exact-named
used column, plus key and result columns. -/
def demoKeySchema : List (Str × PropSchema) :=
  [(str "状态", ⟨str "select", [str "是", str "否"]⟩),
   (str "是否已使用", ⟨str "checkbox", []⟩),
   (str "投票密码", ⟨str "title", []⟩),
   (str "投票结果", ⟨str "rich_text", []⟩)]

/-- Witness for C7: on the demonstration schema the exact name beats
the fuzzy candidate enumerated before it. -/
theorem resolveUsedProperty_exact_first_witness :
    resolveUsedProperty none demoKeySchema =
      .ok (str "是否已使用", ⟨str "checkbox", []⟩) :=
  (resolveUsedProperty_exact_first demoKeySchema (str "是否已使用")
      ⟨str "checkbox", []⟩ (by decide) (by decide)).2 (by decide)

/-! ## Theorems about the used-flag truthiness predicate -/

theorem dropWhile_eq_self_of_append (p : Char → Bool) (l t : List Char)
    (h : List.dropWhile p (l ++ t) = l ++ t) : List.dropWhile p l = l := by
  cases l with
  | nil => rfl
  | cons a rest =>
    rw [List.cons_append, List.dropWhile_cons] at h
    by_cases hpa : p a = true
    · exfalso
      rw [if_pos hpa] at h
      have hlen := congrArg List.length h
      have hle := (@List.dropWhile_suffix Char (rest ++ t) p).length_le
      simp at hlen hle
      omega
    · rw [List.dropWhile_cons, if_neg hpa]

theorem trimLeft_trimRight (s : Str) (h : trimLeft s = s) :
    trimLeft (trimRight s) = trimRight s := by
  have h1 : (s.reverse.dropWhile isWsChar).reverse <+: s.reverse.reverse :=
    List.reverse_prefix.mpr (List.dropWhile_suffix _)
  rw [List.reverse_reverse] at h1
  rcases h1 with ⟨t, ht⟩
  rw [trimLeft] at h
  rw [← ht] at h
  rw [trimRight, trimLeft]
  exact dropWhile_eq_self_of_append isWsChar _ t h

theorem trim_trim (s : Str) : trim (trim s) = trim s := by
  rw [trim, trim]
  have hA : trimLeft (trimLeft s) = trimLeft s := by
    rw [trimLeft, trimLeft, List.dropWhile_idempotent]
  rw [trimLeft_trimRight _ hA]
  rw [trimRight, trimRight, List.reverse_reverse, List.dropWhile_idempotent]

/-- The claim's affirmative-word test on a column's text: the trimmed
text, compared case-insensitively against the affirmative words. -/
def affirmativeText (s : Str) : Bool :=
  AFFIRMATIVE_WORDS.contains (toLowerStr (trim s))

/-- The used-flag truthiness predicate exactly as claim C8 words it: a
checkbox column is its boolean value; a text/select/status/title column
is true exactly when its trimmed text matches an affirmative word
(是/yes/true/已用/已使用/used, case-insensitive); a numeric column is
true exactly when its value is greater than zero; an absent property or
any other column type is false. -/
def usedFlagSpec : Option PropertyValue → Bool
  | none => false
  | some (.checkbox b) => b
  | some (.select name) => affirmativeText (name.getD [])
  | some (.status name) => affirmativeText (name.getD [])
  | some (.richText parts) => affirmativeText parts.flatten
  | some (.titleV parts) => affirmativeText parts.flatten
  | some (.number n) => decide (0 < n.getD 0)
  | some .other => false

theorem isTruthyValue_eq_affirmativeText (v : Str) :
    isTruthyValue v = affirmativeText v := by
  by_cases hv : v = []
  · subst hv
    decide
  · simp [isTruthyValue, affirmativeText, hv]

/-- Claim C8: the code's used-flag truthiness predicate coincides with
the claim's description on every property value. -/
theorem isUsedPropertyValue_claim (p : Option PropertyValue) :
    isUsedPropertyValue p = usedFlagSpec p := by
  match p with
  | none => rfl
  | some (.checkbox b) => rfl
  | some (.select name) =>
    simp only [isUsedPropertyValue, usedFlagSpec]
    exact isTruthyValue_eq_affirmativeText _
  | some (.status name) =>
    simp only [isUsedPropertyValue, usedFlagSpec]
    exact isTruthyValue_eq_affirmativeText _
  | some (.richText parts) =>
    simp only [isUsedPropertyValue, usedFlagSpec, joinRichText]
    rw [isTruthyValue_eq_affirmativeText, affirmativeText, affirmativeText,
      trim_trim]
  | some (.titleV parts) =>
    simp only [isUsedPropertyValue, usedFlagSpec, joinRichText]
    rw [isTruthyValue_eq_affirmativeText, affirmativeText, affirmativeText,
      trim_trim]
  | some (.number n) => rfl
  | some .other => rfl

/-- Witness for C8 at concrete property values of each interesting
kind. -/
theorem isUsedPropertyValue_claim_witness :
    isUsedPropertyValue (some (.checkbox true)) = usedFlagSpec (some (.checkbox true))
  ∧ isUsedPropertyValue (some (.richText [str " YES ", str ""])) =
      usedFlagSpec (some (.richText [str " YES ", str ""]))
  ∧ isUsedPropertyValue (some (.number (some 2))) =
      usedFlagSpec (some (.number (some 2)))
  ∧ isUsedPropertyValue none = usedFlagSpec none :=
  ⟨isUsedPropertyValue_claim _, isUsedPropertyValue_claim _,
    isUsedPropertyValue_claim _, isUsedPropertyValue_claim _⟩

/-! ## Theorems about the Update Executor -/

/-- Claim C1: with a key database configured and a key supplied, a key
page whose used-flag predicate holds makes `performVoteUpdate` reject
with the `Key already used.` error after only the schema fetch and the
key-page fetch: no vote-count column is read or written — the trace
holds no page update at all and no retrieval of any vote target. -/
theorem performVoteUpdate_rejects_used_key
    (env : Env) (kdb k : Str) (props : List (Str × PropSchema))
    (used : Str × PropSchema) (keyPage : Page)
    (aggregatedVotes : List VoteEntry) (resultsPayload : Payload)
    (hdb : env.keyDatabaseId = some kdb)
    (hprops : env.keyDbProps = .ok props)
    (hused : resolveUsedProperty env.usedOverride props = .ok used)
    (hpage : env.retrievePage k = .ok keyPage)
    (hflag : isUsedPropertyValue (lookupEntry keyPage.properties used.1) = true) :
    performVoteUpdate env (some k) aggregatedVotes resultsPayload =
        (.error keyAlreadyUsedError, [.retrieveDatabase kdb, .retrievePage k])
  ∧ ∀ op ∈ (performVoteUpdate env (some k) aggregatedVotes resultsPayload).2,
      ∀ pid pn w, op ≠ NotionOp.updatePage pid pn w := by
  have hmain : performVoteUpdate env (some k) aggregatedVotes resultsPayload =
      (.error keyAlreadyUsedError, [.retrieveDatabase kdb, .retrievePage k]) := by
    simp [performVoteUpdate, keyCheckPhase, hdb, hprops, hused, hpage, hflag]
  refine ⟨hmain, ?_⟩
  rw [hmain]
  simp

/-- The environment shared by the update-executor witnesses: the
demonstration key schema, a key page whose used flag is set, and
always-succeeding writes. -/
def demoEnvUsedKey : Env :=
  { databaseId := str "db", keyDatabaseId := some (str "kdb"),
    keyOverride := none, usedOverride := none, resultOverride := none,
    voteOverride := none, keyDbProps := .ok demoKeySchema,
    voteDbProps := .ok [],
    retrievePage := fun _ => .ok ⟨[(str "是否已使用", .checkbox true)]⟩,
    updatePage := fun _ _ => .ok () }

/-- Witness for C1 at a concrete environment and a non-empty delta
list. -/
theorem performVoteUpdate_rejects_used_key_witness :
    performVoteUpdate demoEnvUsedKey (some (str "k1"))
        [⟨str "a", 1⟩] (.fromVotes []) =
      (.error keyAlreadyUsedError,
        [.retrieveDatabase (str "kdb"), .retrievePage (str "k1")]) :=
  (performVoteUpdate_rejects_used_key demoEnvUsedKey (str "kdb") (str "k1")
      demoKeySchema (str "是否已使用", ⟨str "checkbox", []⟩)
      ⟨[(str "是否已使用", .checkbox true)]⟩ [⟨str "a", 1⟩] (.fromVotes [])
      rfl rfl (by decide) rfl (by decide)).1

/-- Claim C3: with a key database configured, a key supplied, the key
unused and every vote-count update succeeding, the result-payload write
and the used-flag write are both attempted, in that order; a failure of
either is captured in `resultsError` (messages concatenated with
`"; "` when both fail) and the call still returns an `UpdateOutcome`
successfully. -/
theorem performVoteUpdate_key_write_failures_captured
    (env : Env) (kdb k : Str) (props : List (Str × PropSchema))
    (used keyProp resProp : Str × PropSchema) (keyPage : Page)
    (aggregatedVotes : List VoteEntry) (resultsPayload : Payload)
    (votePropertyName : Option Str) (results : List TargetResult)
    (t2 : List NotionOp) (w uw : PropWrite) (r1 r2 : Except JsError Unit)
    (hdb : env.keyDatabaseId = some kdb)
    (hprops : env.keyDbProps = .ok props)
    (hused : resolveUsedProperty env.usedOverride props = .ok used)
    (hpage : env.retrievePage k = .ok keyPage)
    (hflag : isUsedPropertyValue (lookupEntry keyPage.properties used.1) = false)
    (hvotes : votesPhase env aggregatedVotes = (.ok (votePropertyName, results), t2))
    (hkeyp : resolveKeyProperty env.keyOverride props = .ok keyProp)
    (hresp : resolveResultProperty env.resultOverride props keyProp.1 used.1 =
      .ok resProp)
    (hbuild : buildResultUpdate resProp.2 (serializePayload resultsPayload) = .ok w)
    (hbuildU : buildUsedUpdate used.2 = .ok uw)
    (hw1 : env.updatePage k resProp.1 = r1)
    (hw2 : env.updatePage k used.1 = r2) :
    performVoteUpdate env (some k) aggregatedVotes resultsPayload =
      (.ok { updated := results.length, property := votePropertyName,
             results := results,
             resultsSaved := match r1 with | .ok _ => true | .error _ => false,
             resultsError := match r1, r2 with
               | .ok _, .ok _ => none
               | .error e1, .ok _ => some e1.message
               | .ok _, .error e2 => some e2.message
               | .error e1, .error e2 =>
                   some (e1.message ++ str "; " ++ e2.message) },
       [.retrieveDatabase kdb, .retrievePage k] ++ t2 ++
         [.updatePage k resProp.1 w, .updatePage k used.1 uw]) := by
  rcases r1 with e1 | u1 <;> rcases r2 with e2 | u2 <;>
    simp [performVoteUpdate, keyCheckPhase, keyWritesPhase, updateKeyResultsCall,
      markKeyUsedCall, hdb, hprops, hused, hpage, hflag, hvotes, hkeyp, hresp,
      hbuild, hbuildU, hw1, hw2]

theorem buildResultChunks_r : buildResultChunks (str "r") = [str "r"] := by
  have h1 : chunkLoop (str "r") 0 = [str "r"] := by
    rw [chunkLoop, if_neg (by decide), chunkLoop, if_pos (by decide)]
    decide
  simp only [buildResultChunks, h1]
  rw [if_neg (by decide)]

theorem buildResultUpdate_demo :
    buildResultUpdate ⟨str "rich_text", []⟩
        (serializePayload (.fromBody (str "r"))) =
      .ok (.richText [str "r"]) := by
  simp [buildResultUpdate, serializePayload, buildResultChunks_r]

/-- Like `demoEnvUsedKey`, but the key page is unused and every page
update fails with a 500 `boom` error. -/
def demoEnvWritesFail : Env :=
  { databaseId := str "db", keyDatabaseId := some (str "kdb"),
    keyOverride := none, usedOverride := none, resultOverride := none,
    voteOverride := none, keyDbProps := .ok demoKeySchema,
    voteDbProps := .ok [],
    retrievePage := fun _ => .ok ⟨[(str "是否已使用", .checkbox false)]⟩,
    updatePage := fun _ _ => .error ⟨some 500, str "boom"⟩ }

/-- Witness for C3: with both key writes failing, the call still
returns an outcome, both writes appear in the trace, and the two
failure messages are concatenated in `resultsError`. -/
theorem performVoteUpdate_key_write_failures_captured_witness :
    performVoteUpdate demoEnvWritesFail (some (str "k1")) [] (.fromBody (str "r")) =
      (.ok { updated := 0, property := none, results := [],
             resultsSaved := false, resultsError := some (str "boom; boom") },
       [.retrieveDatabase (str "kdb"), .retrievePage (str "k1"),
        .updatePage (str "k1") (str "投票结果") (.richText [str "r"]),
        .updatePage (str "k1") (str "是否已使用") (.checkbox true)]) := by
  have h := performVoteUpdate_key_write_failures_captured demoEnvWritesFail
    (str "kdb") (str "k1") demoKeySchema
    (str "是否已使用", ⟨str "checkbox", []⟩)
    (str "投票密码", ⟨str "title", []⟩)
    (str "投票结果", ⟨str "rich_text", []⟩)
    ⟨[(str "是否已使用", .checkbox false)]⟩ [] (.fromBody (str "r"))
    none [] [] (.richText [str "r"]) (.checkbox true)
    (.error ⟨some 500, str "boom"⟩) (.error ⟨some 500, str "boom"⟩)
    rfl rfl (by decide) rfl (by decide) rfl (by decide) (by decide)
    buildResultUpdate_demo (by decide) rfl rfl
  simpa using h

/-- Claim C10: with a key database configured, an unused key supplied
and an empty aggregated-deltas list, `performVoteUpdate` resolves,
reads and writes no vote-count column (the outcome reports 0 updates
and no vote property, and the trace holds only the schema fetch, the
key fetch and the two key writes), yet it still writes the key's result
payload and marks the key used — an empty submission consumes the
key. -/
theorem performVoteUpdate_empty_votes_consumes_key
    (env : Env) (kdb k : Str) (props : List (Str × PropSchema))
    (used keyProp resProp : Str × PropSchema) (keyPage : Page)
    (resultsPayload : Payload) (w uw : PropWrite)
    (hdb : env.keyDatabaseId = some kdb)
    (hprops : env.keyDbProps = .ok props)
    (hused : resolveUsedProperty env.usedOverride props = .ok used)
    (hpage : env.retrievePage k = .ok keyPage)
    (hflag : isUsedPropertyValue (lookupEntry keyPage.properties used.1) = false)
    (hkeyp : resolveKeyProperty env.keyOverride props = .ok keyProp)
    (hresp : resolveResultProperty env.resultOverride props keyProp.1 used.1 =
      .ok resProp)
    (hbuild : buildResultUpdate resProp.2 (serializePayload resultsPayload) = .ok w)
    (hbuildU : buildUsedUpdate used.2 = .ok uw)
    (hw1 : env.updatePage k resProp.1 = .ok ())
    (hw2 : env.updatePage k used.1 = .ok ()) :
    performVoteUpdate env (some k) [] resultsPayload =
      (.ok { updated := 0, property := none, results := [],
             resultsSaved := true, resultsError := none },
       [.retrieveDatabase kdb, .retrievePage k,
        .updatePage k resProp.1 w, .updatePage k used.1 uw]) := by
  have h := performVoteUpdate_key_write_failures_captured env kdb k props
    used keyProp resProp keyPage [] resultsPayload none [] [] w uw
    (.ok ()) (.ok ()) hdb hprops hused hpage hflag rfl hkeyp hresp hbuild
    hbuildU hw1 hw2
  simpa using h

/-- Like `demoEnvWritesFail`, but every page update succeeds. -/
def demoEnvUnusedKey : Env :=
  { databaseId := str "db", keyDatabaseId := some (str "kdb"),
    keyOverride := none, usedOverride := none, resultOverride := none,
    voteOverride := none, keyDbProps := .ok demoKeySchema,
    voteDbProps := .ok [],
    retrievePage := fun _ => .ok ⟨[(str "是否已使用", .checkbox false)]⟩,
    updatePage := fun _ _ => .ok () }

/-- Witness for C10 at a concrete environment. -/
theorem performVoteUpdate_empty_votes_consumes_key_witness :
    performVoteUpdate demoEnvUnusedKey (some (str "k1")) [] (.fromBody (str "r")) =
      (.ok { updated := 0, property := none, results := [],
             resultsSaved := true, resultsError := none },
       [.retrieveDatabase (str "kdb"), .retrievePage (str "k1"),
        .updatePage (str "k1") (str "投票结果") (.richText [str "r"]),
        .updatePage (str "k1") (str "是否已使用") (.checkbox true)]) :=
  performVoteUpdate_empty_votes_consumes_key demoEnvUnusedKey
    (str "kdb") (str "k1") demoKeySchema
    (str "是否已使用", ⟨str "checkbox", []⟩)
    (str "投票密码", ⟨str "title", []⟩)
    (str "投票结果", ⟨str "rich_text", []⟩)
    ⟨[(str "是否已使用", .checkbox false)]⟩ (.fromBody (str "r"))
    (.richText [str "r"]) (.checkbox true)
    rfl rfl (by decide) rfl (by decide) (by decide) (by decide)
    buildResultUpdate_demo (by decide) rfl rfl

/-! ## Theorems about job submission -/

/-- Claim C9: an accepted submission persists a new `queued` job record
(job id, received-at timestamp, key id, sanitized votes, results
payload) and responds with the job id; the response is computed from
the durable write's outcome alone — never from the job's asynchronous
processing — and when the initial durable write fails, the caller gets
an error response and no job is enqueued. -/
theorem handleVotesPost_claim (cfg : ServerConfig) (persistResult : Except Str Unit)
    (jobId now : Str) (req : VotesRequest) (db apiKey : Str)
    (hdb : cfg.databaseId = some db)
    (hkey : cfg.notionApiKey = some apiKey)
    (hguard : ¬(cfg.keyDatabaseId.isSome ∧ req.keyId.getD [] = [])) :
    (∀ u, persistResult = .ok u →
      (handleVotesPost cfg persistResult jobId now req).response = .accepted jobId
      ∧ (handleVotesPost cfg persistResult jobId now req).persisted =
          some { jobId := jobId, receivedAt := now, status := str "queued",
                 keyId := if req.keyId.getD [] = [] then none
                   else some (req.keyId.getD []),
                 votes := sanitizeVotes (req.votes.getD []),
                 results := match req.results with
                   | some raw => Payload.fromBody raw
                   | none => Payload.fromVotes (sanitizeVotes (req.votes.getD [])) }
      ∧ (handleVotesPost cfg persistResult jobId now req).enqueued.isSome = true)
  ∧ (∀ m, persistResult = .error m →
      (handleVotesPost cfg persistResult jobId now req).response = .saveFailed m
      ∧ (handleVotesPost cfg persistResult jobId now req).persisted = none
      ∧ (handleVotesPost cfg persistResult jobId now req).enqueued = none) := by
  constructor
  · rintro u rfl
    refine ⟨?_, ?_, ?_⟩ <;>
      simp [handleVotesPost, hdb, hkey, hguard]
  · rintro m rfl
    refine ⟨?_, ?_, ?_⟩ <;>
      simp [handleVotesPost, hdb, hkey, hguard]

/-- A concrete configured server and a concrete submission request. -/
def demoCfg : ServerConfig :=
  { databaseId := some (str "db"), notionApiKey := some (str "secret"),
    keyDatabaseId := some (str "kdb") }

/-- A concrete request: a key id, one well-formed vote and one
malformed vote entry (dropped by sanitization). -/
def demoReq : VotesRequest :=
  { keyId := some (str "k1"),
    votes := some [⟨some (str "a"), some 2⟩, ⟨none, some 5⟩],
    results := none }

/-- Witness for C9: on the concrete request, a successful durable write
yields the accepted response and the queued record, and a failed one
yields the error response with nothing enqueued. -/
theorem handleVotesPost_claim_witness :
    ((handleVotesPost demoCfg (.ok ()) (str "j1") (str "t0") demoReq).response =
        .accepted (str "j1")
      ∧ (handleVotesPost demoCfg (.ok ()) (str "j1") (str "t0") demoReq).persisted =
        some { jobId := str "j1", receivedAt := str "t0", status := str "queued",
               keyId := some (str "k1"), votes := [⟨str "a", 2⟩],
               results := Payload.fromVotes [⟨str "a", 2⟩] })
  ∧ ((handleVotesPost demoCfg (.error (str "disk full")) (str "j1") (str "t0")
        demoReq).response = .saveFailed (str "disk full")
      ∧ (handleVotesPost demoCfg (.error (str "disk full")) (str "j1") (str "t0")
        demoReq).enqueued = none) := by
  have hok := (handleVotesPost_claim demoCfg (.ok ()) (str "j1") (str "t0") demoReq
    (str "db") (str "secret") rfl rfl (by decide)).1 () rfl
  have herr := (handleVotesPost_claim demoCfg (.error (str "disk full")) (str "j1")
    (str "t0") demoReq (str "db") (str "secret") rfl rfl (by decide)).2
    (str "disk full") rfl
  refine ⟨⟨hok.1, ?_⟩, herr.1, herr.2.2⟩
  rw [hok.2.1]
  decide

end ChargedbAward
